import Mathlib

/-!
Verification of the MCP tool subsystem (registry, loader, manager) of the
FastAPI agentic backend, shallowly embedded from `app/mcp/tool_registry.py`,
`app/mcp/tool_loader.py`, `app/mcp/tool_manager.py` and
`app/mcp/tools/current_date.py`.

Python dictionaries are modelled as association lists (first-match lookup,
replace-or-append insertion), `os.environ` as a function
`String → Option String`, raised exceptions as `Except`, and the
configuration file on disk as an abstract `ConfigSource`.
-/

namespace MCP

/-- JSON-like values, the `Any` universe for tool config values, tool
arguments and tool outputs. -/
inductive Val where
  | vNull : Val
  | vBool (b : Bool) : Val
  | vInt (n : Int) : Val
  | vStr (s : String) : Val
  | vList (xs : List Val) : Val
  | vMap (kvs : List (String × Val)) : Val


/-- First-match association-list lookup, the model of Python `dict.get` /
`d[k]` / `k in d`. -/
def alookup {α : Type} (k : String) : List (String × α) → Option α
  | [] => none
  | (k', v) :: rest => if k' = k then some v else alookup k rest

/-- Replace-or-append insertion, the model of Python `d[k] = v`. -/
def ainsert {α : Type} (k : String) (v : α) : List (String × α) → List (String × α)
  | [] => [(k, v)]
  | (k', v') :: rest => if k' = k then (k, v) :: rest else (k', v') :: ainsert k v rest

/-- The process environment seen by `os.getenv`. -/
def Env : Type := String → Option String

/-- `ToolConfig` (tool_registry.py): `enabled`, `description` and the
free-form `config` mapping. -/
structure ToolConfig where
  enabled : Bool
  description : String
  config : List (String × Val)


/-- `MCPConfig` (tool_registry.py): the root registry document, with
`version` defaulting to "1.0" and `tools` defaulting to the empty mapping. -/
structure MCPConfig where
  version : String := "1.0"
  tools : List (String × ToolConfig) := []


/-- The configuration file on disk, as seen by `ToolRegistry._load_config`:
it is either absent, present with content that fails JSON/schema parsing,
or present and parsing to a document. -/
inductive ConfigSource where
  | absent : ConfigSource
  | malformed : ConfigSource
  | present (doc : MCPConfig) : ConfigSource


/-- The exceptions `_load_config` lets escape: `json.JSONDecodeError` or a
pydantic validation error, both re-raised by the `except` clauses. -/
inductive ConfigError where
  | parseError : ConfigError


/-- `ToolRegistry._load_config`: a missing file yields the empty document
(`MCPConfig(tools={})`, with the default version) after a warning log;
malformed content raises, and the raise propagates to the caller. -/
def load_config : ConfigSource → Except ConfigError MCPConfig
  | ConfigSource.absent => Except.ok { tools := [] }
  | ConfigSource.malformed => Except.error ConfigError.parseError
  | ConfigSource.present doc => Except.ok doc

/-- `ToolRegistry.get_enabled_tools`: filter the document's tools by the
`enabled` flag. -/
def get_enabled_tools (cfg : MCPConfig) : List (String × ToolConfig) :=
  cfg.tools.filter (fun p => p.2.enabled)

/-- `ToolRegistry.get_tool_config`: `self.config.tools.get(tool_name)`. -/
def get_tool_config (cfg : MCPConfig) (tool_name : String) : Option ToolConfig :=
  alookup tool_name cfg.tools

/-- `ToolRegistry.is_tool_enabled`: `tool.enabled if tool else False`. -/
def is_tool_enabled (cfg : MCPConfig) (tool_name : String) : Bool :=
  match alookup tool_name cfg.tools with
  | some tool => tool.enabled
  | none => false

/-- `ToolRegistry.get_tool_description`. -/
def get_tool_description (cfg : MCPConfig) (tool_name : String) : Option String :=
  match alookup tool_name cfg.tools with
  | some tool => some tool.description
  | none => none

/-- The placeholder test of `interpolate_config`:
`value.startswith("${") and value.endswith("}")` (stated on the character
list underlying the string). -/
def isPlaceholder (s : String) : Bool :=
  "$\x7b".data.isPrefixOf s.data && "\x7d".data.isSuffixOf s.data

/-- The variable name extracted by `interpolate_config`: `value[2:-1]`. -/
def placeholderVar (s : String) : String :=
  (s.drop 2).dropRight 1

/-- `ToolRegistry.interpolate_config`: the `for key, value in
tool_config.items()` loop, building `result` entry by entry.  A string value
of the shape `${NAME}` is replaced by `os.getenv(NAME, value)` — the
environment value when set, the original placeholder otherwise; every other
value is copied through unchanged. -/
def interpolate_config (env : Env) : List (String × Val) → List (String × Val)
  | [] => []
  | (key, value) :: rest =>
    (match value with
     | Val.vStr s =>
       if isPlaceholder s then
         (key, Val.vStr ((env (placeholderVar s)).getD s))
       else
         (key, value)
     | _ => (key, value)) :: interpolate_config env rest

/-- The registry's held document: `self.config`, assigned by `__init__` and
`reload_config`. -/
structure RegistryState where
  config : MCPConfig


/-- `ToolRegistry.reload_config`: `self.config = self._load_config()`.  The
right-hand side is evaluated before the assignment, so when `_load_config`
raises, the exception propagates and `self.config` is left untouched. -/
def reload_config (st : RegistryState) (src : ConfigSource) :
    Except ConfigError Unit × RegistryState :=
  match load_config src with
  | Except.ok cfg => (Except.ok (), { config := cfg })
  | Except.error e => (Except.error e, st)

/-- `ToolLoader.TOOL_IMPLEMENTATIONS`: the static tool-name → module map. -/
def TOOL_IMPLEMENTATIONS : List (String × String) :=
  [("google_search", "app.mcp.tools.google_search"),
   ("sqlite", "app.mcp.tools.sqlite_tool"),
   ("current_date", "app.mcp.tools.current_date")]

/-- Python `str.capitalize()`: first character uppercased, the rest
lowercased. -/
def py_capitalize (s : String) : String :=
  match s.data with
  | [] => ""
  | c :: cs => String.mk (c.toUpper :: cs.map Char.toLower)

/-- Python `str.split('_')` on the underlying character list: split at
every underscore (consecutive underscores yield empty words). -/
def split_on_underscore : List Char → List Char → List (List Char)
  | [], acc => [acc.reverse]
  | c :: cs, acc =>
    if c = '_' then acc.reverse :: split_on_underscore cs []
    else split_on_underscore cs (c :: acc)

/-- `ToolLoader._to_pascal_case`: capitalize each `_`-separated word and
join. -/
def to_pascal_case (snake_str : String) : String :=
  String.join ((split_on_underscore snake_str.data []).map
    (fun w => py_capitalize (String.mk w)))

/-- The tool modules that exist in the source tree (`app/mcp/tools/`) and
the classes they define.  `app.mcp.tools.sqlite_tool` is referenced by
`TOOL_IMPLEMENTATIONS` but has no source file, so importing it raises
`ModuleNotFoundError`. -/
def module_classes : List (String × List String) :=
  [("app.mcp.tools.google_search", ["GoogleSearch"]),
   ("app.mcp.tools.current_date", ["CurrentDate"])]

/-- `ToolLoader._import_module` / `importlib.import_module`: yields the
module's attribute set, or raises (modelled as `none`, caught by
`load_tool`'s `except` clause) when the module does not exist. -/
def import_module (module_path : String) : Option (List String) :=
  alookup module_path module_classes

/-- A constructed tool instance, `tool_class(config)`: `BaseTool.__init__`
stores the interpolated config and the class name.  `instanceId` records
object identity — each construction stamps a fresh id, so two instances
are the same Python object exactly when they are equal here. -/
structure ToolInstance where
  className : String
  config : List (String × Val)
  instanceId : Nat

/-- The loader's mutable state: `self._tool_cache`, plus the construction
counter (`nextId`) that stamps instance identities and counts how many
`tool_class(config)` constructions have happened. -/
structure LoaderState where
  cache : List (String × ToolInstance)
  nextId : Nat

/-- The body of the `async def ToolLoader.load_tool`, i.e. what happens
when its coroutine is actually awaited: cache hit, enablement check,
config lookup (`if not tool_config` — a pydantic model is truthy, `None`
falsy), interpolation, module resolution, import (a raise is caught by the
`except` clause and turned into `None`), `hasattr` class check,
construction, and cache store before return. -/
def load_tool (reg : MCPConfig) (env : Env) (st : LoaderState) (tool_name : String) :
    Option ToolInstance × LoaderState :=
  match alookup tool_name st.cache with
  | some inst => (some inst, st)
  | none =>
    if ¬ is_tool_enabled reg tool_name then (none, st)
    else
      match get_tool_config reg tool_name with
      | none => (none, st)
      | some tool_config =>
        let config := interpolate_config env tool_config.config
        match alookup tool_name TOOL_IMPLEMENTATIONS with
        | none => (none, st)
        | some module_path =>
          match import_module module_path with
          | none => (none, st)
          | some classes =>
            let class_name := to_pascal_case tool_name
            if class_name ∈ classes then
              let inst : ToolInstance := ⟨class_name, config, st.nextId⟩
              (some inst, ⟨ainsert tool_name inst st.cache, st.nextId + 1⟩)
            else (none, st)

/-- `ToolLoader.clear_cache`: `self._tool_cache.clear()`.  The identity
counter is model bookkeeping, not Python state, and stays monotone. -/
def clear_cache (st : LoaderState) : LoaderState :=
  ⟨[], st.nextId⟩

/-- Loader states reachable from a fresh loader (`__init__` makes the
cache empty) by any sequence of `load_tool` calls against a fixed registry
document and environment. -/
inductive Reachable (reg : MCPConfig) (env : Env) : LoaderState → Prop where
  | init (n : Nat) : Reachable reg env ⟨[], n⟩
  | step {st : LoaderState} (tool_name : String) :
      Reachable reg env st → Reachable reg env (load_tool reg env st tool_name).2

/-- A value held in the manager's `_tools` mapping, characterised by what
`await tool.execute(**kwargs)` does with it: `Except.error` is a raised
fault (carrying `str(e)`), `Except.ok` a returned value. -/
structure PyTool where
  execute : List (String × Val) → Except String Val

/-- The object `load_all_tools` actually stores: calling the `async def
load_tool` without `await` creates a coroutine whose body has not run.
Attribute access `tool.execute` on a coroutine raises `AttributeError`,
whose `str` is the message below. -/
def coroutineObject (_tool_name : String) : PyTool :=
  ⟨fun _ => Except.error "'coroutine' object has no attribute 'execute'"⟩

/-- `ToolLoader.load_all_tools`: iterates the enabled names and runs
`tool = self.load_tool(tool_name)`.  `load_tool` is `async def` and is not
awaited here, so each `tool` is a freshly created coroutine object: no
tool body runs, nothing is constructed or cached, and the coroutine —
always truthy, so the `if tool:` test passes — is stored in the result
mapping. -/
def load_all_tools (reg : MCPConfig) : List (String × PyTool) :=
  (get_enabled_tools reg).map (fun p => (p.1, coroutineObject p.1))

/-- `ToolResult` (tool_manager.py): the uniform execution envelope. -/
structure ToolResult where
  success : Bool
  data : Val
  error : Option String

/-- The manager's mutable state: the registry's held document, the
loader's state, and the optional `_tools` mapping (`None` before
initialization). -/
structure ManagerState where
  registry : MCPConfig
  loader : LoaderState
  tools? : Option (List (String × PyTool))

/-- The `try` block of `ToolManager.execute_tool` once `self._tools` holds
`tools`: the membership test and "not found" envelope, the call
`await tool.execute(**kwargs)` and the success envelope, with the
`except Exception` clause converting any raised fault into
`ToolResult(success=False, data=None, error=str(e))` — so no fault
escapes; the function is total and always returns a `ToolResult`. -/
def execute_tool_with (tools : List (String × PyTool)) (tool_name : String)
    (kwargs : List (String × Val)) : ToolResult :=
  match alookup tool_name tools with
  | none => ⟨false, Val.vNull, some ("Tool '" ++ tool_name ++ "' not found or not enabled")⟩
  | some tool =>
    match tool.execute kwargs with
    | Except.ok result => ⟨true, result, none⟩
    | Except.error e => ⟨false, Val.vNull, some e⟩

/-- `ToolManager.initialize`: `self._tools = self.loader.load_all_tools()`.
`load_all_tools` never runs the loader coroutines, so the loader state is
untouched. -/
def manager_init (st : ManagerState) : ManagerState :=
  { st with tools? := some (load_all_tools st.registry) }

/-- `ToolManager.execute_tool`: lazily initializes when `self._tools is
None`, then dispatches through the `try`/`except` body. -/
def execute_tool (st : ManagerState) (tool_name : String) (kwargs : List (String × Val)) :
    ToolResult × ManagerState :=
  let tools := match st.tools? with
    | none => load_all_tools st.registry
    | some t => t
  (execute_tool_with tools tool_name kwargs, { st with tools? := some tools })

/-- Follows the spec's words, for comparison with `interpolate_config`:
"for every string value matching the pattern `${NAME}`, substitute the
value of environment variable `NAME`; if the variable is unset, leave the
literal placeholder unchanged (do not fail, do not substitute empty
string). Non-string values and non-matching strings pass through
unchanged." -/
def spec_interpolate_entry (env : Env) : String × Val → String × Val
  | (key, Val.vStr s) =>
    if isPlaceholder s then
      match env (placeholderVar s) with
      | some v => (key, Val.vStr v)
      | none => (key, Val.vStr s)
    else (key, Val.vStr s)
  | (key, value) => (key, value)

/-! ### Concrete fixtures used by the witnesses -/

/-- A sample environment with exactly `MY_VAR` set. -/
def sampleEnv : Env := fun n => if n = "MY_VAR" then some "secret" else none

/-- The registry document of the end-to-end scenario:
`{"current_date": {"enabled": true, "description": "d", "config": {}}}`. -/
def currentDateDoc : MCPConfig :=
  { version := "1.0"
    tools := [("current_date", { enabled := true, description := "d", config := [] })] }

/-- A document declaring one disabled tool. -/
def disabledDoc : MCPConfig :=
  { version := "1.0"
    tools := [("google_search", { enabled := false, description := "g", config := [] })] }

/-- A fresh loader, as `ToolLoader.__init__` leaves it. -/
def emptyLoader : LoaderState := ⟨[], 0⟩

/-- A tool double whose `execute` returns a value. -/
def okTool : PyTool := ⟨fun _ => Except.ok (Val.vInt 7)⟩

/-- A tool double whose `execute` raises. -/
def badTool : PyTool := ⟨fun _ => Except.error "boom"⟩

/-- A manager whose `_tools` mapping holds the two doubles. -/
def doubledMgr : ManagerState :=
  ⟨{ tools := [] }, emptyLoader, some [("ok", okTool), ("bad", badTool)]⟩

/-! ### Association-list lemmas -/

theorem alookup_ainsert {α : Type} (k n : String) (v : α) (l : List (String × α)) :
    alookup n (ainsert k v l) = if k = n then some v else alookup n l := by
  induction l with
  | nil => simp [ainsert, alookup]
  | cons p rest ih =>
    obtain ⟨k', v'⟩ := p
    by_cases hk : k' = k
    · subst hk
      by_cases hn : k' = n <;> simp [ainsert, alookup, hn]
    · by_cases hn : k' = n
      · subst hn
        have hkn : ¬ (k = k') := fun h => hk h.symm
        simp [ainsert, alookup, hk, hkn]
      · simp [ainsert, alookup, hk, hn, ih]

theorem alookup_none_of_keys {α : Type} (n : String) (l : List (String × α))
    (h : n ∉ l.map Prod.fst) : alookup n l = none := by
  induction l with
  | nil => rfl
  | cons p rest ih =>
    obtain ⟨k', v'⟩ := p
    simp only [List.map_cons, List.mem_cons] at h
    push_neg at h
    have hk : k' ≠ n := fun hh => h.1 hh.symm
    simp [alookup, hk, ih h.2]

theorem keys_filter_subset {α : Type} (p : String × α → Bool) (l : List (String × α))
    (n : String) (hn : n ∈ (l.filter p).map Prod.fst) : n ∈ l.map Prod.fst := by
  simp only [List.mem_map] at hn ⊢
  obtain ⟨q, hq, rfl⟩ := hn
  exact ⟨q, (List.mem_filter.mp hq).1, rfl⟩

theorem alookup_filter_of_lookup {α : Type} (n : String) (l : List (String × α))
    (p : String × α → Bool) (v : α)
    (hnd : (l.map Prod.fst).Nodup) (hl : alookup n l = some v) (hp : p (n, v) = false) :
    alookup n (l.filter p) = none := by
  induction l with
  | nil => simp [alookup] at hl
  | cons q rest ih =>
    obtain ⟨k', v'⟩ := q
    simp only [List.map_cons, List.nodup_cons] at hnd
    by_cases hk : k' = n
    · subst hk
      simp only [alookup, if_pos, Option.some.injEq] at hl
      subst hl
      rw [List.filter_cons]
      have hfrest : alookup k' (rest.filter p) = none :=
        alookup_none_of_keys k' _ (fun hmem => hnd.1 (keys_filter_subset p rest k' hmem))
      by_cases hpq : p (k', v') = true
      · rw [hp] at hpq; exact absurd hpq (by simp)
      · simp only [hpq]
        simpa using hfrest
    · simp only [alookup, if_neg hk] at hl
      rw [List.filter_cons]
      by_cases hpq : p (k', v') = true
      · simp only [hpq, if_pos]
        simp only [alookup, if_neg hk]
        exact ih hnd.2 hl
      · simp only [hpq]
        simpa using ih hnd.2 hl

theorem alookup_map_keys_none {α β : Type} (n : String) (l : List (String × α))
    (g : String × α → β) (h : alookup n l = none) :
    alookup n (l.map (fun q => (q.1, g q))) = none := by
  induction l with
  | nil => rfl
  | cons q rest ih =>
    obtain ⟨k', v'⟩ := q
    by_cases hk : k' = n
    · subst hk; simp [alookup] at h
    · simp only [alookup, if_neg hk] at h
      simp only [List.map_cons, alookup, if_neg hk]
      exact ih h

/-! ### Branch lemmas for `load_tool` -/

theorem load_tool_cache_hit (reg : MCPConfig) (env : Env) (st : LoaderState) (tn : String)
    (inst : ToolInstance) (h : alookup tn st.cache = some inst) :
    load_tool reg env st tn = (some inst, st) := by
  simp [load_tool, h]

theorem load_tool_not_enabled (reg : MCPConfig) (env : Env) (st : LoaderState) (tn : String)
    (hmiss : alookup tn st.cache = none) (hdis : is_tool_enabled reg tn = false) :
    load_tool reg env st tn = (none, st) := by
  simp [load_tool, hmiss, hdis]

theorem load_tool_snd (reg : MCPConfig) (env : Env) (st : LoaderState) (tn : String) :
    (load_tool reg env st tn).2 = st ∨
    (is_tool_enabled reg tn = true ∧
      ∃ inst, (load_tool reg env st tn).2 = ⟨ainsert tn inst st.cache, st.nextId + 1⟩) := by
  unfold load_tool
  rcases hc : alookup tn st.cache with _ | i0
  · by_cases hen : is_tool_enabled reg tn
    · rcases hcfg : get_tool_config reg tn with _ | tc
      · simp [hen, hcfg]
      · rcases himpl : alookup tn TOOL_IMPLEMENTATIONS with _ | mp
        · simp [hen, hcfg, himpl]
        · rcases himp : import_module mp with _ | cls
          · simp [hen, hcfg, himpl, himp]
          · by_cases hcls : to_pascal_case tn ∈ cls
            · refine Or.inr ⟨hen, ⟨to_pascal_case tn, interpolate_config env tc.config, st.nextId⟩, ?_⟩
              simp [hen, hcfg, himpl, himp, hcls]
            · simp [hen, hcfg, himpl, himp, hcls]
    · simp [hen]
  · simp

theorem cache_keys_enabled {reg : MCPConfig} {env : Env} {st : LoaderState}
    (h : Reachable reg env st) :
    ∀ n inst, alookup n st.cache = some inst → is_tool_enabled reg n = true := by
  induction h with
  | init m => intro n inst hl; simp [alookup] at hl
  | step tn hst ih =>
    intro n inst hl
    rcases load_tool_snd _ _ _ tn with heq | ⟨hen, inst0, heq⟩
    · rw [heq] at hl; exact ih n inst hl
    · rw [heq] at hl
      simp only at hl
      rw [alookup_ainsert] at hl
      by_cases hk : tn = n
      · subst hk; exact hen
      · rw [if_neg hk] at hl; exact ih n inst hl

theorem load_tool_success_eq (reg : MCPConfig) (env : Env) (st : LoaderState) (tn : String)
    (tc : ToolConfig) (mp : String) (cls : List String)
    (hmiss : alookup tn st.cache = none)
    (hen : is_tool_enabled reg tn = true)
    (hcfg : get_tool_config reg tn = some tc)
    (himpl : alookup tn TOOL_IMPLEMENTATIONS = some mp)
    (himp : import_module mp = some cls)
    (hcls : to_pascal_case tn ∈ cls) :
    load_tool reg env st tn =
      (some ⟨to_pascal_case tn, interpolate_config env tc.config, st.nextId⟩,
       ⟨ainsert tn ⟨to_pascal_case tn, interpolate_config env tc.config, st.nextId⟩ st.cache,
        st.nextId + 1⟩) := by
  simp [load_tool, hmiss, hen, hcfg, himpl, himp, hcls]

theorem load_tool_success_inv (reg : MCPConfig) (env : Env) (st : LoaderState) (tn : String)
    (inst : ToolInstance) (st' : LoaderState)
    (hmiss : alookup tn st.cache = none)
    (hsucc : load_tool reg env st tn = (some inst, st')) :
    inst.instanceId = st.nextId ∧
    st' = ⟨ainsert tn inst st.cache, st.nextId + 1⟩ := by
  by_cases hen : is_tool_enabled reg tn = true
  · rcases hcfg : get_tool_config reg tn with _ | tc
    · rw [show load_tool reg env st tn = (none, st) from by
        simp [load_tool, hmiss, hen, hcfg]] at hsucc
      simp at hsucc
    · rcases himpl : alookup tn TOOL_IMPLEMENTATIONS with _ | mp
      · rw [show load_tool reg env st tn = (none, st) from by
          simp [load_tool, hmiss, hen, hcfg, himpl]] at hsucc
        simp at hsucc
      · rcases himp : import_module mp with _ | cls
        · rw [show load_tool reg env st tn = (none, st) from by
            simp [load_tool, hmiss, hen, hcfg, himpl, himp]] at hsucc
          simp at hsucc
        · by_cases hcls : to_pascal_case tn ∈ cls
          · rw [load_tool_success_eq reg env st tn tc mp cls hmiss hen hcfg himpl himp hcls]
              at hsucc
            simp only [Prod.mk.injEq, Option.some.injEq] at hsucc
            obtain ⟨h1, h2⟩ := hsucc
            subst h1
            exact ⟨rfl, h2.symm⟩
          · rw [show load_tool reg env st tn = (none, st) from by
              simp [load_tool, hmiss, hen, hcfg, himpl, himp, hcls]] at hsucc
            simp at hsucc
  · rw [load_tool_not_enabled reg env st tn hmiss (by simpa using hen)] at hsucc
    simp at hsucc

/-! ### Claim theorems -/

/-- C1: the end-to-end claim fails on the code.  With a registry document
declaring `current_date` enabled, `execute_tool("current_date",
format="date_only")` lazily initializes via `load_all_tools`, which calls
the `async def load_tool` without `await` and therefore stores a coroutine
object in `_tools`; the subsequent `tool.execute` attribute access raises
`AttributeError`, which the `except` clause converts into
`success=False` — not the claimed `success=True` with a `date` field. -/
theorem current_date_e2e_returns_failure :
    (execute_tool ⟨currentDateDoc, emptyLoader, none⟩ "current_date"
        [("format", Val.vStr "date_only")]).1 =
      ⟨false, Val.vNull, some "'coroutine' object has no attribute 'execute'"⟩ := rfl

/-- C2: for every tool held in the manager's `_tools` mapping and every
arguments map, a raise inside the tool's `execute` yields
`ToolResult(success=False, data=None, error=str(e))` and a returned value
`V` yields `ToolResult(success=True, data=V, error=None)`.  No fault
propagates past the manager: `execute_tool` is a total function into
`ToolResult` (the `except Exception` clause), never an `Except`. -/
theorem execute_tool_uniform_envelope (st : ManagerState)
    (tools : List (String × PyTool)) (tn : String) (tool : PyTool)
    (kwargs : List (String × Val))
    (htools : st.tools? = some tools) (hmem : alookup tn tools = some tool) :
    (∀ v, tool.execute kwargs = Except.ok v →
      (execute_tool st tn kwargs).1 = ⟨true, v, none⟩) ∧
    (∀ msg, tool.execute kwargs = Except.error msg →
      (execute_tool st tn kwargs).1 = ⟨false, Val.vNull, some msg⟩) := by
  constructor
  · intro v hv
    simp [execute_tool, execute_tool_with, htools, hmem, hv]
  · intro msg hmsg
    simp [execute_tool, execute_tool_with, htools, hmem, hmsg]

theorem execute_tool_uniform_envelope_witness :
    doubledMgr.tools? = some [("ok", okTool), ("bad", badTool)] ∧
    alookup "bad" [("ok", okTool), ("bad", badTool)] = some badTool ∧
    ((∀ v, badTool.execute [] = Except.ok v →
        (execute_tool doubledMgr "bad" []).1 = ⟨true, v, none⟩) ∧
     (∀ msg, badTool.execute [] = Except.error msg →
        (execute_tool doubledMgr "bad" []).1 = ⟨false, Val.vNull, some msg⟩)) :=
  ⟨rfl, rfl, execute_tool_uniform_envelope doubledMgr _ "bad" badTool [] rfl rfl⟩

/-- C3: `interpolate_config` maps every top-level entry through exactly the
spec's substitution rule (`spec_interpolate_entry`): a string value of the
shape `${NAME}` becomes the value of environment variable `NAME` when set
and stays the literal placeholder when unset; non-string values and
non-matching strings pass through unchanged.  Being an entry-wise `map`
over the top-level entries with a non-recursive entry function, the
interpolation is shallow: nested structures are never recursed into. -/
theorem interpolate_config_matches_spec (env : Env) (cfg : List (String × Val)) :
    interpolate_config env cfg = cfg.map (spec_interpolate_entry env) := by
  induction cfg with
  | nil => rfl
  | cons p rest ih =>
    obtain ⟨k, v⟩ := p
    simp only [interpolate_config, List.map_cons, ih]
    congr 1
    cases v with
    | vStr s =>
      by_cases hp : isPlaceholder s
      · rcases he : env (placeholderVar s) with _ | w <;>
          simp [spec_interpolate_entry, hp, he, Option.getD]
      · simp [spec_interpolate_entry, hp]
    | vNull => simp [spec_interpolate_entry]
    | vBool b => simp [spec_interpolate_entry]
    | vInt n => simp [spec_interpolate_entry]
    | vList xs => simp [spec_interpolate_entry]
    | vMap kvs => simp [spec_interpolate_entry]

/-- C4: a tool declared in the document with `enabled:false` is excluded
from `get_enabled_tools`; `load_tool` on it returns `None` with the loader
state — cache and construction counter — unchanged, so it is never
instantiated nor cached (the `Reachable` hypothesis says the cache arose
from loader use against this document); and `execute_tool` answers the
"not found" envelope, the manager hypothesis covering both a
not-yet-initialized manager and one initialized from this document.  The
key-nodup hypothesis reflects that the document is a parsed JSON object,
whose keys are unique. -/
theorem disabled_tool_excluded_never_constructed (reg : MCPConfig) (env : Env)
    (st : LoaderState) (mgr : ManagerState) (tn : String) (tc : ToolConfig)
    (kwargs : List (String × Val))
    (hnodup : (reg.tools.map Prod.fst).Nodup)
    (hdecl : alookup tn reg.tools = some tc)
    (hdis : tc.enabled = false)
    (hreach : Reachable reg env st)
    (hreg : mgr.registry = reg)
    (hmgr : mgr.tools? = none ∨ mgr.tools? = some (load_all_tools reg)) :
    alookup tn (get_enabled_tools reg) = none ∧
    load_tool reg env st tn = (none, st) ∧
    (execute_tool mgr tn kwargs).1 =
      ⟨false, Val.vNull, some ("Tool '" ++ tn ++ "' not found or not enabled")⟩ := by
  have hexcl : alookup tn (get_enabled_tools reg) = none := by
    unfold get_enabled_tools
    exact alookup_filter_of_lookup tn reg.tools _ tc hnodup hdecl (by simpa using hdis)
  have henb : is_tool_enabled reg tn = false := by
    simp [is_tool_enabled, hdecl, hdis]
  have hmiss : alookup tn st.cache = none := by
    cases hc : alookup tn st.cache with
    | none => rfl
    | some i =>
      have := cache_keys_enabled hreach tn i hc
      rw [henb] at this
      exact absurd this (by simp)
  have hnot : alookup tn (load_all_tools reg) = none := by
    unfold load_all_tools
    exact alookup_map_keys_none tn _ _ hexcl
  refine ⟨hexcl, load_tool_not_enabled reg env st tn hmiss henb, ?_⟩
  rcases hmgr with h | h <;>
    simp [execute_tool, execute_tool_with, hreg, h, hnot]

theorem disabled_tool_excluded_never_constructed_witness :
    ((disabledDoc.tools.map Prod.fst).Nodup ∧
     alookup "google_search" disabledDoc.tools =
       some { enabled := false, description := "g", config := [] } ∧
     ({ enabled := false, description := "g", config := [] } : ToolConfig).enabled = false ∧
     Reachable disabledDoc sampleEnv emptyLoader ∧
     (⟨disabledDoc, emptyLoader, none⟩ : ManagerState).registry = disabledDoc ∧
     ((⟨disabledDoc, emptyLoader, none⟩ : ManagerState).tools? = none ∨
       (⟨disabledDoc, emptyLoader, none⟩ : ManagerState).tools? =
         some (load_all_tools disabledDoc))) ∧
    (alookup "google_search" (get_enabled_tools disabledDoc) = none ∧
     load_tool disabledDoc sampleEnv emptyLoader "google_search" = (none, emptyLoader) ∧
     (execute_tool ⟨disabledDoc, emptyLoader, none⟩ "google_search" []).1 =
       ⟨false, Val.vNull, some ("Tool '" ++ "google_search" ++ "' not found or not enabled")⟩) :=
  ⟨⟨by simp [disabledDoc], rfl, rfl, Reachable.init 0, rfl, Or.inl rfl⟩,
   disabled_tool_excluded_never_constructed disabledDoc sampleEnv emptyLoader
     ⟨disabledDoc, emptyLoader, none⟩ "google_search"
     { enabled := false, description := "g", config := [] } []
     (by simp [disabledDoc]) rfl rfl (Reachable.init 0) rfl (Or.inl rfl)⟩

/-- C5: caching in `load_tool`.  If the first call on a not-yet-cached name
succeeds with instance `inst` and post-state `st1`, then the construction
counter advanced by exactly one (one `tool_class(config)` construction),
`inst` was stored in the cache keyed by the name, and a second call is a
pure cache hit: it returns the identical instance and leaves the state —
counter included — untouched, so nothing is re-constructed or
re-interpolated. -/
theorem load_tool_caching_idempotent (reg : MCPConfig) (env : Env) (st : LoaderState)
    (tn : String) (inst : ToolInstance) (st1 : LoaderState)
    (hmiss : alookup tn st.cache = none)
    (hsucc : load_tool reg env st tn = (some inst, st1)) :
    alookup tn st1.cache = some inst ∧
    st1.nextId = st.nextId + 1 ∧
    load_tool reg env st1 tn = (some inst, st1) := by
  obtain ⟨hid, hst⟩ := load_tool_success_inv reg env st tn inst st1 hmiss hsucc
  subst hst
  have hhit : alookup tn (ainsert tn inst st.cache) = some inst := by
    rw [alookup_ainsert]; simp
  exact ⟨hhit, rfl, load_tool_cache_hit reg env _ tn inst hhit⟩

theorem load_tool_caching_idempotent_witness :
    alookup "current_date" emptyLoader.cache = none ∧
    load_tool currentDateDoc sampleEnv emptyLoader "current_date" =
      (some ⟨"CurrentDate", [], 0⟩,
       ⟨[("current_date", ⟨"CurrentDate", [], 0⟩)], 1⟩) ∧
    (alookup "current_date"
        (⟨[("current_date", ⟨"CurrentDate", [], 0⟩)], 1⟩ : LoaderState).cache =
      some ⟨"CurrentDate", [], 0⟩ ∧
     (⟨[("current_date", ⟨"CurrentDate", [], 0⟩)], 1⟩ : LoaderState).nextId =
       emptyLoader.nextId + 1 ∧
     load_tool currentDateDoc sampleEnv
        ⟨[("current_date", ⟨"CurrentDate", [], 0⟩)], 1⟩ "current_date" =
       (some ⟨"CurrentDate", [], 0⟩,
        ⟨[("current_date", ⟨"CurrentDate", [], 0⟩)], 1⟩)) :=
  ⟨rfl, rfl, load_tool_caching_idempotent _ _ _ _ _ _ rfl rfl⟩

/-- C6: `_load_config` on an absent configuration file succeeds with the
empty document (default version, no tools) — the warning log is not
modelled — while present-but-malformed content raises a parse error that
propagates to the caller, producing no partial or best-effort document. -/
theorem load_config_absent_vs_malformed :
    load_config ConfigSource.absent = Except.ok { version := "1.0", tools := [] } ∧
    load_config ConfigSource.malformed = Except.error ConfigError.parseError :=
  ⟨rfl, rfl⟩

/-- C7: when the configuration source is present but malformed,
`reload_config` propagates the parse error and the registry's previously
held document stays in effect unchanged: the assignment
`self.config = self._load_config()` evaluates its right-hand side first,
so the raise aborts before any part of the held state is replaced. -/
theorem reload_failure_keeps_prior_config (st : RegistryState) :
    reload_config st ConfigSource.malformed =
      (Except.error ConfigError.parseError, st) := rfl

/-- C8: for a name absent from the document's tools mapping,
`is_tool_enabled` answers false and `load_tool` returns `None` (leaving
the loader untouched) from any loader state reachable against this
document — reachable caches only ever hold enabled names, so the
cache-first lookup cannot produce an instance for an unknown name. -/
theorem unknown_tool_disabled_and_unloadable (reg : MCPConfig) (env : Env)
    (st : LoaderState) (tn : String)
    (habs : alookup tn reg.tools = none)
    (hreach : Reachable reg env st) :
    is_tool_enabled reg tn = false ∧ load_tool reg env st tn = (none, st) := by
  have hdis : is_tool_enabled reg tn = false := by simp [is_tool_enabled, habs]
  have hmiss : alookup tn st.cache = none := by
    cases hc : alookup tn st.cache with
    | none => rfl
    | some i =>
      have := cache_keys_enabled hreach tn i hc
      rw [hdis] at this
      exact absurd this (by simp)
  exact ⟨hdis, load_tool_not_enabled reg env st tn hmiss hdis⟩

theorem unknown_tool_disabled_and_unloadable_witness :
    alookup "sqlite" currentDateDoc.tools = none ∧
    Reachable currentDateDoc sampleEnv emptyLoader ∧
    (is_tool_enabled currentDateDoc "sqlite" = false ∧
     load_tool currentDateDoc sampleEnv emptyLoader "sqlite" = (none, emptyLoader)) :=
  ⟨rfl, Reachable.init 0,
   unknown_tool_disabled_and_unloadable currentDateDoc sampleEnv emptyLoader "sqlite"
     rfl (Reachable.init 0)⟩

/-- C10: whenever `is_tool_enabled` answers true, the very same first-match
lookup backs `get_tool_config`, so a configuration is returned (and it is
enabled); hence `load_tool`'s `if not tool_config` error branch, which sits
after the enablement check, can never fire. -/
theorem enabled_tool_has_config (cfg : MCPConfig) (tn : String)
    (h : is_tool_enabled cfg tn = true) :
    ∃ tc, get_tool_config cfg tn = some tc ∧ tc.enabled = true := by
  unfold is_tool_enabled at h
  cases hc : alookup tn cfg.tools with
  | none => rw [hc] at h; simp at h
  | some tc =>
    rw [hc] at h
    exact ⟨tc, by simpa [get_tool_config] using hc, h⟩

theorem enabled_tool_has_config_witness :
    is_tool_enabled currentDateDoc "current_date" = true ∧
    ∃ tc, get_tool_config currentDateDoc "current_date" = some tc ∧ tc.enabled = true :=
  ⟨rfl, enabled_tool_has_config currentDateDoc "current_date" rfl⟩

end MCP
